import Mathlib

/-!
Verification development for the pose-signal / exercise-state pipeline of the
form-coach repository.  The TypeScript sources are shallowly embedded over
exact rationals (JS `number` arithmetic modelled by `ℚ`, integer-valued
results by `ℤ`/`ℕ`).  Transcendental helpers (`Math.acos`, `Math.hypot`)
appearing inside joint-angle / distance computations are not exactly
representable over `ℚ`; the functions that consume them are therefore
parametric in the angle (resp. geometry) oracle, and every theorem below
quantifies over that parameter — none of the verified properties depends on
the value the oracle returns.
-/

/-- Model of JS `Math.round`: round half toward positive infinity. -/
def jsRound (q : ℚ) : ℤ := ⌊q + 1/2⌋

/-- Model of JS `Math.sign` on exact rationals. -/
def jsSign (q : ℚ) : ℚ := if 0 < q then 1 else if q < 0 then -1 else 0

/-- Model of the JS remainder operator `%` on integers (truncated toward zero). -/
def jsMod (a b : ℤ) : ℤ := Int.tmod a b

/-- Keypoint record from `src/pose/utils.ts`:
`{ x: number; y: number; score?: number; name?: string }`. -/
structure KP where
  x : ℚ
  y : ℚ
  score : Option ℚ := none
  name : Option String := none
  deriving DecidableEq, Repr

/-- Raw detector point from `src/pose/usePoseStream.ts`:
`{ name?: string; x: number; y: number; score?: number }`. -/
structure RawPoint where
  x : ℚ
  y : ℚ
  score : Option ℚ := none
  name : Option String := none
  deriving DecidableEq, Repr

/-- Frame payload from `src/pose/usePoseStream.ts` (`PoseFramePayload`). -/
structure PoseFramePayload where
  width : ℚ
  height : ℚ
  orientation : ℤ
  isMirrored : Bool
  points : List RawPoint
  deriving DecidableEq, Repr

/-- Embedding of `rotatePoint` (src/src/pose/usePoseStream.ts, lines 142-161):
switch on the normalized orientation, default branch returns the point
unchanged. -/
def rotatePoint (x y width height : ℚ) (orientation : ℤ) : ℚ × ℚ :=
  match orientation with
  | 0 => (x, y)
  | 90 => (height - y, x)
  | 180 => (width - x, height - y)
  | 270 => (y, width - x)
  | _ => (x, y)

/-- Embedding of `clamp01` (src/src/pose/usePoseStream.ts):
`Math.max(0, Math.min(1, value))`. -/
def clamp01 (value : ℚ) : ℚ := max 0 (min 1 value)

/-- Embedding of `transformPosePoints` (src/src/pose/usePoseStream.ts,
lines 88-140).  JS falsiness of `width`/`height` is the `= 0` test; the
`Number.isFinite(normX) && Number.isFinite(normY)` guard is modelled by
`viewWidth ≠ 0 ∧ viewHeight ≠ 0`, the only source of a non-finite value in
exact arithmetic (the divisions by `rotatedWidth`/`rotatedHeight` are guarded
by the `!width || !height` check). -/
def transformPosePoints (payload : PoseFramePayload) (viewWidth viewHeight : ℚ)
    (displayMirrored : Bool) : List KP :=
  if payload.width = 0 ∨ payload.height = 0 ∨ payload.points = [] then []
  else
    let normalizedOrientation := jsMod (jsMod payload.orientation 360 + 360) 360
    let rotatedWidth :=
      if jsMod normalizedOrientation 180 = 0 then payload.width else payload.height
    let rotatedHeight :=
      if jsMod normalizedOrientation 180 = 0 then payload.height else payload.width
    let scale := max (viewWidth / rotatedWidth) (viewHeight / rotatedHeight)
    let scaledWidth := rotatedWidth * scale
    let scaledHeight := rotatedHeight * scale
    let offsetX := (scaledWidth - viewWidth) / 2
    let offsetY := (scaledHeight - viewHeight) / 2
    payload.points.filterMap (fun point =>
      let r := rotatePoint point.x point.y payload.width payload.height
        normalizedOrientation
      let shouldMirror := cond displayMirrored (!payload.isMirrored) payload.isMirrored
      let x := cond shouldMirror (rotatedWidth - r.1) r.1
      let scaledX := x * scale - offsetX
      let scaledY := r.2 * scale - offsetY
      let normX := scaledX / viewWidth
      let normY := scaledY / viewHeight
      if viewWidth = 0 ∨ viewHeight = 0 then none
      else some { x := clamp01 normX, y := clamp01 normY, score := point.score,
                  name := point.name })

/-- C4: the normalizer's rotation step maps a source point `(x,y)` of a
`width×height` frame as: orientation 0° to `(x, y)`; 90° to `(height−y, x)`;
180° to `(width−x, height−y)`; 270° to `(y, width−x)`; in particular `(0,0)`
maps pre-scale to `(height, 0)` for 90°, `(width, height)` for 180°, and
`(0, width)` for 270°, for every frame size. -/
theorem rotatePoint_cases (x y w h : ℚ) :
    rotatePoint x y w h 0 = (x, y) ∧
    rotatePoint x y w h 90 = (h - y, x) ∧
    rotatePoint x y w h 180 = (w - x, h - y) ∧
    rotatePoint x y w h 270 = (y, w - x) ∧
    rotatePoint 0 0 w h 90 = (h, 0) ∧
    rotatePoint 0 0 w h 180 = (w, h) ∧
    rotatePoint 0 0 w h 270 = (0, w) := by
  refine ⟨rfl, rfl, rfl, rfl, ?_, ?_, ?_⟩ <;> simp [rotatePoint]

/-- C5: normalizing with `displayMirror=true, detectorMirrored=false` produces
exactly the same output as `displayMirror=false, detectorMirrored=true` (both
mirror), and `displayMirror=true, detectorMirrored=true` produces the same
output as `displayMirror=false, detectorMirrored=false` (the flags cancel) —
for every frame payload, view size and point list. -/
theorem transformPosePoints_mirror_xor (w h : ℚ) (o : ℤ) (pts : List RawPoint)
    (vw vh : ℚ) :
    transformPosePoints ⟨w, h, o, false, pts⟩ vw vh true =
      transformPosePoints ⟨w, h, o, true, pts⟩ vw vh false ∧
    transformPosePoints ⟨w, h, o, true, pts⟩ vw vh true =
      transformPosePoints ⟨w, h, o, false, pts⟩ vw vh false := by
  exact ⟨rfl, rfl⟩

/-- Case-insensitive equality of an ASCII character list against an
all-lowercase-letter target (uppercase ASCII letter code + 32 = lowercase). -/
def eqLowerList : List Char → List Char → Bool
  | [], [] => true
  | a :: as, b :: bs => (a.toNat = b.toNat || a.toNat + 32 = b.toNat) && eqLowerList as bs
  | _, _ => false

/-- Embedding of `normalizeName` (src/src/pose/utils.ts, lines 20-27): strips
one trailing `Position` or `Landmark` (case-insensitive over ASCII, anchored
at the end, as in the regex applied by `name.replace`). -/
def stripNameSuffix (name : String) : String :=
  let cs := name.data
  let n := cs.length
  if 8 ≤ n ∧ (eqLowerList (cs.drop (n - 8)) "position".data ∨
      eqLowerList (cs.drop (n - 8)) "landmark".data)
  then ⟨cs.take (n - 8)⟩ else name

/-- One iteration of the `forEach` body of `byName`
(src/src/pose/utils.ts, lines 4-18), as a map transformer.  JS falsiness of
`kp.name` covers both `undefined` and the empty string; `!map[base]` is the
`= none` test after the full-name write. -/
def byNameStep (m : String → Option KP) (kp : KP) : String → Option KP := fun n =>
  match kp.name with
  | none => m n
  | some name =>
    if name = "" then m n
    else
      let m1 : String → Option KP := fun q => if q = name then some kp else m q
      let base := stripNameSuffix name
      if base ≠ "" ∧ m1 base = none then
        if n = base then some kp else m1 n
      else m1 n

/-- Embedding of `byName` (src/src/pose/utils.ts, lines 4-18): fold the
per-keypoint writes over an initially empty map. -/
def byName (keypoints : List KP) : String → Option KP :=
  keypoints.foldl byNameStep (fun _ => none)

/-- Last keypoint of the list carrying exactly the given full name. -/
def lastNamed (kps : List KP) (n : String) : Option KP :=
  (kps.filter (fun k => k.name = some n)).getLast?

theorem byNameStep_preserve (m : String → Option KP) (a : KP) (n : String)
    (kp : KP) (hne : a.name ≠ some n) (hm : m n = some kp) :
    byNameStep m a n = some kp := by
  cases hna : a.name with
  | none => simpa [byNameStep, hna] using hm
  | some na =>
    have hn : n ≠ na := by
      intro e
      exact hne (by rw [hna, e])
    by_cases h0 : na = ""
    · simpa [byNameStep, hna, h0] using hm
    · simp only [byNameStep, hna, if_neg h0]
      by_cases hreg : stripNameSuffix na ≠ "" ∧
          (if stripNameSuffix na = na then some a else m (stripNameSuffix na)) = none
      · rw [if_pos hreg]
        by_cases hb : n = stripNameSuffix na
        · exfalso
          have h2 := hreg.2
          rw [← hb] at h2
          rw [if_neg hn] at h2
          rw [hm] at h2
          exact Option.noConfusion h2
        · rw [if_neg hb, if_neg hn]
          exact hm
      · rw [if_neg hreg, if_neg hn]
        exact hm

theorem byNameStep_write (m : String → Option KP) (a : KP) (n : String)
    (hna : a.name = some n) (h0 : n ≠ "") :
    byNameStep m a n = some a := by
  simp only [byNameStep, hna, if_neg h0]
  split
  · split <;> simp
  · simp

theorem byNameStep_register (m : String → Option KP) (kp : KP) (nm : String)
    (hname : kp.name = some nm) (h0 : nm ≠ "")
    (hsuf : stripNameSuffix nm ≠ nm) (hb0 : stripNameSuffix nm ≠ "")
    (hm : m (stripNameSuffix nm) = none) :
    byNameStep m kp (stripNameSuffix nm) = some kp := by
  simp only [byNameStep, hname, if_neg h0]
  have hm1 : (if stripNameSuffix nm = nm then some kp else m (stripNameSuffix nm)) =
      none := by
    rw [if_neg hsuf]
    exact hm
  rw [if_pos ⟨hb0, hm1⟩]
  simp

theorem byName_foldl_preserve (t : List KP) :
    ∀ (m : String → Option KP) (n : String) (kp : KP), m n = some kp →
      (∀ b ∈ t, b.name ≠ some n) → t.foldl byNameStep m n = some kp := by
  induction t with
  | nil =>
    intro m n kp hm _
    simpa using hm
  | cons a t ih =>
    intro m n kp hm hall
    have ha : a.name ≠ some n := hall a (List.mem_cons_self a t)
    exact ih (byNameStep m a) n kp (byNameStep_preserve m a n kp ha hm)
      (fun b hb => hall b (List.mem_cons_of_mem a hb))

theorem byName_foldl_last (l : List KP) :
    ∀ (m : String → Option KP) (n : String) (kp : KP), n ≠ "" →
      lastNamed l n = some kp → l.foldl byNameStep m n = some kp := by
  induction l using List.reverseRecOn with
  | nil =>
    intro m n kp _ h
    simp [lastNamed] at h
  | append_singleton l a ih =>
    intro m n kp h0 hlast
    rw [List.foldl_append]
    by_cases ha : a.name = some n
    · have he : lastNamed (l ++ [a]) n = some a := by
        simp [lastNamed, List.filter_append, ha]
      rw [he] at hlast
      have hkp : kp = a := Option.some_injective _ hlast.symm
      simp only [List.foldl_cons, List.foldl_nil]
      rw [hkp]
      exact byNameStep_write _ a n ha h0
    · have he : lastNamed (l ++ [a]) n = lastNamed l n := by
        simp [lastNamed, List.filter_append, ha]
      rw [he] at hlast
      simp only [List.foldl_cons, List.foldl_nil]
      exact byNameStep_preserve _ a n kp ha (ih m n kp h0 hlast)

/-- C10 (amended): (a) when several keypoints share the same (non-empty) full
name, the last one wins for that name; (b) a keypoint whose name carries a
`Position`/`Landmark` suffix is additionally retrievable under the
suffix-stripped base name provided no earlier keypoint already occupies the
base name AND no later keypoint's own full name equals the base name (a later
full-name write overwrites the base registration — the extra condition the
original claim omits). -/
theorem byName_spec :
    (∀ (kps : List KP) (n : String) (kp : KP), n ≠ "" →
        lastNamed kps n = some kp → byName kps n = some kp) ∧
    (∀ (pre post : List KP) (kp : KP) (nm : String),
        kp.name = some nm → nm ≠ "" → stripNameSuffix nm ≠ nm →
        stripNameSuffix nm ≠ "" → byName pre (stripNameSuffix nm) = none →
        (∀ k ∈ post, k.name ≠ some (stripNameSuffix nm)) →
        byName (pre ++ kp :: post) (stripNameSuffix nm) = some kp) := by
  constructor
  · intro kps n kp h0 hlast
    exact byName_foldl_last kps _ n kp h0 hlast
  · intro pre post kp nm hname h0 hsuf hb0 hpre hpost
    unfold byName
    rw [List.foldl_append, List.foldl_cons]
    exact byName_foldl_preserve post _ _ kp
      (byNameStep_register (byName pre) kp nm hname h0 hsuf hb0 hpre) hpost

/-- Keypoint examples for C10. -/
def c10A : KP := { x := 0, y := 0, name := some "leftHipPosition" }

/-- Second keypoint example for C10: full name equal to the stripped base. -/
def c10B : KP := { x := 1, y := 1, name := some "leftHip" }

/-- C10 counterexample: `c10A` is suffixed with base `leftHip` and no earlier
keypoint occupies that base (alone in the list it IS retrievable under it),
yet in `[c10A, c10B]` the later keypoint whose full name is exactly `leftHip`
overwrites the base slot, so `c10A` is not retrievable under the base even
though no EARLIER keypoint occupied it — refuting clause (b) as stated. -/
theorem byName_suffix_shadowed :
    stripNameSuffix "leftHipPosition" = "leftHip" ∧
    byName ([] : List KP) "leftHip" = none ∧
    byName [c10A] "leftHip" = some c10A ∧
    byName [c10A, c10B] "leftHip" = some c10B ∧
    some c10B ≠ some c10A := by
  refine ⟨by decide, rfl, by decide, by decide, by decide⟩

/-- Keypoint examples for the C10 witness. -/
def c10W1 : KP := { x := 0, y := 0, name := some "rightHip" }

/-- Second witness keypoint sharing the name of the first. -/
def c10W2 : KP := { x := 1, y := 2, name := some "rightHip" }

/-- Suffixed witness keypoint. -/
def c10W3 : KP := { x := 3, y := 4, name := some "rightKneeLandmark" }

/-- Witness for C10: concrete instances of both clauses of `byName_spec`. -/
theorem byName_spec_witness :
    byName [c10W1, c10W2] "rightHip" = some c10W2 ∧
    byName ([] ++ c10W3 :: []) (stripNameSuffix "rightKneeLandmark") = some c10W3 := by
  constructor
  · exact byName_spec.1 [c10W1, c10W2] "rightHip" c10W2 (by decide) (by decide)
  · exact byName_spec.2 [] [] c10W3 "rightKneeLandmark" (by decide) (by decide)
      (by decide) (by decide) rfl (by intro k hk; cases hk)

namespace SquatCounter

/-- Rep phase of the 4-state squat counter (src/unnamed/part_007, line 80). -/
inductive RepState
  | TOP
  | DESCENDING
  | BOTTOM
  | ASCENDING
  deriving DecidableEq, Repr

/-- Rep FSM record (src/unnamed/part_007, lines 82-90).  `count` and the hold
counters are integer-valued JS numbers, modelled by `ℕ`; the score is
integer-valued after `Math.round`, modelled by `ℤ`. -/
structure RepUpdate where
  count : ℕ
  state : RepState
  score : ℤ
  kneeAngle : ℚ
  bottomHold : ℕ
  topHold : ℕ
  lastCueAt : ℚ
  deriving DecidableEq, Repr

/-- Initial rep state (src/unnamed/part_007, lines 92-100). -/
def initialRep : RepUpdate :=
  { count := 0, state := .TOP, score := 100, kneeAngle := 180, bottomHold := 0,
    topHold := 2, lastCueAt := 0 }

/-- Threshold constant (src/unnamed/part_007, line 102). -/
def ENTER_BOTTOM_ANGLE : ℚ := 85

/-- Threshold constant (src/unnamed/part_007, line 103). -/
def EXIT_BOTTOM_ANGLE : ℚ := 115

/-- Threshold constant (src/unnamed/part_007, line 104). -/
def ENTER_TOP_ANGLE : ℚ := 160

/-- Threshold constant (src/unnamed/part_007, line 105). -/
def EXIT_TOP_ANGLE : ℚ := 140

/-- Hold-frame debounce constant (src/unnamed/part_007, line 107). -/
def HOLD_FRAMES : ℕ := 2

/-- Depth term of the squat score (src/unnamed/part_007, line 178):
`Math.max(0, Math.min(1, (160 - Math.min(knee, 160)) / 85))`. -/
def squatDepth (knee : ℚ) : ℚ := max 0 (min 1 ((160 - min knee 160) / 85))

/-- Squat form score (src/unnamed/part_007, lines 180-183):
`Math.round(100 - 40 * Math.max(0, 0.1 - kneeValgus) * 10 + 12 * depth)`
clamped by `Math.max(1, Math.min(100, score))`. -/
def squatScore (knee kneeValgus : ℚ) : ℤ :=
  max 1 (min 100
    (jsRound (100 - 40 * max 0 (1/10 - kneeValgus) * 10 + 12 * squatDepth knee)))

/-- Body of `updateSquatFSM` after the six joints are resolved and the knee
angle computed (src/unnamed/part_007, lines 121-193): the switch over the
previous phase, then the score/valgus computation.  The tuple is
(count, state, bottomHold, topHold). -/
def squatStep (prev : RepUpdate) (knee kneeValgus : ℚ) : RepUpdate :=
  let cs :=
    match prev.state with
    | .TOP =>
      (prev.count,
       if knee < EXIT_TOP_ANGLE then RepState.DESCENDING else .TOP,
       0,
       min HOLD_FRAMES (prev.topHold + 1))
    | .DESCENDING =>
      let bh := if knee < ENTER_BOTTOM_ANGLE then prev.bottomHold + 1 else 0
      let hitBottom := knee < ENTER_BOTTOM_ANGLE ∧ HOLD_FRAMES ≤ prev.bottomHold + 1
      let st0 := if hitBottom then RepState.BOTTOM else .DESCENDING
      let bh1 := if hitBottom then HOLD_FRAMES else bh
      let st := if ENTER_TOP_ANGLE < knee then RepState.TOP else st0
      (prev.count, st, bh1, 0)
    | .BOTTOM =>
      (prev.count,
       if EXIT_BOTTOM_ANGLE < knee then RepState.ASCENDING else .BOTTOM,
       min HOLD_FRAMES (prev.bottomHold + 1),
       0)
    | .ASCENDING =>
      if ENTER_TOP_ANGLE < knee then
        if HOLD_FRAMES ≤ prev.topHold + 1 then
          (prev.count + 1, RepState.TOP, 0, HOLD_FRAMES)
        else (prev.count, .ASCENDING, 0, prev.topHold + 1)
      else (prev.count, .ASCENDING, 0, 0)
  { count := cs.1, state := cs.2.1, score := squatScore knee kneeValgus,
    kneeAngle := knee, bottomHold := cs.2.2.1, topHold := cs.2.2.2,
    lastCueAt := prev.lastCueAt }

/-- Embedding of `updateSquatFSM` (src/unnamed/part_007, lines 109-194),
parametric in the joint-angle oracle `angle` standing in for `angleDeg`
(src/src/pose/utils.ts, lines 29-42), whose `Math.hypot`/`Math.acos` core is
not exactly representable over `ℚ`.  None of the properties proved below
depends on the value the oracle returns. -/
def updateSquatFSM (angle : KP → KP → KP → ℚ) (prev : RepUpdate)
    (kps : List KP) : RepUpdate :=
  let m := byName kps
  match m "leftKnee", m "rightKnee", m "leftHip", m "rightHip", m "leftAnkle",
      m "rightAnkle" with
  | some lk, some rk, some lh, some rh, some la, some ra =>
    squatStep prev (min (angle lh lk la) (angle rh rk ra))
      (max 0 (la.x - lk.x) + max 0 (ra.x - rk.x))
  | _, _, _, _, _, _ => prev

/-- Drive the squat FSM core with a synthetic knee-angle sequence (valgus
term 0): each synthetic frame has all six joints present, so
`updateSquatFSM` reduces to `squatStep` on the computed knee angle. -/
def runSquatAngles (angles : List ℚ) : RepUpdate :=
  angles.foldl (fun s a => squatStep s a 0) initialRep

end SquatCounter

namespace SquatCounter

theorem runSquat_abort_aux (l : List ℚ) :
    ∀ (s : RepUpdate),
      List.Chain' (fun x y => ¬(x < ENTER_BOTTOM_ANGLE ∧ y < ENTER_BOTTOM_ANGLE)) l →
      (s.state = .TOP ∨ s.state = .DESCENDING) →
      (s.bottomHold = 0 ∨
        (s.bottomHold = 1 ∧ s.state = .DESCENDING ∧
          ∀ b ∈ l.head?, ¬ b < ENTER_BOTTOM_ANGLE)) →
      (l.foldl (fun st a => squatStep st a 0) s).count = s.count ∧
      ((l.foldl (fun st a => squatStep st a 0) s).state = .TOP ∨
       (l.foldl (fun st a => squatStep st a 0) s).state = .DESCENDING) := by
  induction l with
  | nil =>
    intro s _ hs _
    exact ⟨rfl, hs⟩
  | cons a t ih =>
    intro s hchain hs hbh
    rw [List.foldl_cons]
    have hch := List.chain'_cons'.mp hchain
    have key : (squatStep s a 0).count = s.count ∧
        ((squatStep s a 0).state = .TOP ∨ (squatStep s a 0).state = .DESCENDING) ∧
        ((squatStep s a 0).bottomHold = 0 ∨
          ((squatStep s a 0).bottomHold = 1 ∧
           (squatStep s a 0).state = .DESCENDING ∧
           ∀ b ∈ t.head?, ¬ b < ENTER_BOTTOM_ANGLE)) := by
      rcases hs with hst | hst
      · refine ⟨by simp [squatStep, hst], ?_, Or.inl (by simp [squatStep, hst])⟩
        by_cases hx : a < EXIT_TOP_ANGLE
        · exact Or.inr (by simp [squatStep, hst, hx])
        · exact Or.inl (by simp [squatStep, hst, hx])
      · by_cases ha : a < ENTER_BOTTOM_ANGLE
        · have hb0 : s.bottomHold = 0 := by
            rcases hbh with h | ⟨_, _, hhd⟩
            · exact h
            · exact absurd ha (hhd a rfl)
          have hnot2 : ¬ HOLD_FRAMES ≤ s.bottomHold + 1 := by
            rw [hb0]
            simp [HOLD_FRAMES]
          have hntop : ¬ ENTER_TOP_ANGLE < a := by
            simp only [ENTER_TOP_ANGLE]
            have h85 : a < (85 : ℚ) := by simpa [ENTER_BOTTOM_ANGLE] using ha
            intro hgt
            linarith
          refine ⟨by simp [squatStep, hst], ?_, ?_⟩
          · exact Or.inr (by simp [squatStep, hst, ha, hnot2, hntop])
          · refine Or.inr ⟨by simp [squatStep, hst, ha, hnot2, hntop, hb0, HOLD_FRAMES],
              by simp [squatStep, hst, ha, hnot2, hntop], ?_⟩
            intro b hb
            have hrel := hch.1 b hb
            intro hblt
            exact hrel ⟨ha, hblt⟩
        · refine ⟨by simp [squatStep, hst], ?_, Or.inl (by simp [squatStep, hst, ha])⟩
          by_cases htop : ENTER_TOP_ANGLE < a
          · exact Or.inl (by simp [squatStep, hst, ha, htop])
          · exact Or.inr (by simp [squatStep, hst, ha, htop])
    refine ⟨?_, ?_⟩
    · rw [(ih (squatStep s a 0) hch.2 key.2.1 key.2.2).1]
      exact key.1
    · exact (ih (squatStep s a 0) hch.2 key.2.1 key.2.2).2

/-- C1 (amended): starting from the initial state, the synthetic knee-angle
sequence 180°, 60° held 3 frames, 180° held 3 frames yields count exactly 1
and final phase TOP (the frame that triggers a phase exit does not count
toward the next phase's hold, so each hold needs one extra frame beyond the
claimed 2); and any angle sequence in which the angle never stays below the
enter-bottom threshold (85°) for two consecutive frames — in particular any
abort that returns to the TOP angle from DESCENDING — yields count 0. -/
theorem squat_roundtrip :
    (runSquatAngles [180, 60, 60, 60, 180, 180, 180]).count = 1 ∧
    (runSquatAngles [180, 60, 60, 60, 180, 180, 180]).state = .TOP ∧
    ∀ (angles : List ℚ),
      List.Chain' (fun x y => ¬(x < ENTER_BOTTOM_ANGLE ∧ y < ENTER_BOTTOM_ANGLE))
        angles →
      (runSquatAngles angles).count = 0 := by
  refine ⟨by decide, by decide, ?_⟩
  intro angles hch
  exact (runSquat_abort_aux angles initialRep hch (Or.inl rfl) (Or.inl rfl)).1

/-- C1 counterexample: the exact sequence of the claim — 180°, then 60° held
2 consecutive frames, then 180° held 2 consecutive frames — yields count 0,
not 1 (final phase is TOP only because the rep was aborted): the frame that
exits TOP does not count toward `bottomHold`, so the FSM never reaches
BOTTOM. -/
theorem squat_claim_sequence_count_zero :
    (runSquatAngles [180, 60, 60, 180, 180]).count = 0 ∧
    (runSquatAngles [180, 60, 60, 180, 180]).state = RepState.TOP ∧
    (runSquatAngles [180, 60, 60, 180, 180]).count ≠ 1 := by
  refine ⟨by decide, by decide, by decide⟩

/-- Witness for C1: a concrete abort sequence (dips below the exit-top
threshold, returns above enter-top, single-frame dip below 85°, returns)
satisfies the no-two-consecutive-frames-below-85° hypothesis and yields
count 0. -/
theorem squat_roundtrip_witness :
    List.Chain' (fun x y => ¬(x < ENTER_BOTTOM_ANGLE ∧ y < ENTER_BOTTOM_ANGLE))
      [180, 100, 170, 80, 170] ∧
    (runSquatAngles [180, 100, 170, 80, 170]).count = 0 := by
  have hch : List.Chain'
      (fun x y : ℚ => ¬(x < ENTER_BOTTOM_ANGLE ∧ y < ENTER_BOTTOM_ANGLE))
      [180, 100, 170, 80, 170] := by
    norm_num [List.chain'_cons, List.chain'_singleton, ENTER_BOTTOM_ANGLE]
  exact ⟨hch, squat_roundtrip.2.2 [180, 100, 170, 80, 170] hch⟩

end SquatCounter

namespace PushupCounter

/-- The push-up counter (src/src/reps/pushupCounter.ts, line 3) re-declares
the same 4-state union as the squat counter; the embedding shares the
inductive. -/
abbrev RepState := SquatCounter.RepState

/-- Rep FSM record (src/src/reps/pushupCounter.ts, lines 5-12). -/
structure RepUpdate where
  count : ℕ
  state : RepState
  score : ℤ
  elbowAngle : ℚ
  bottomHold : ℕ
  topHold : ℕ
  deriving DecidableEq, Repr

/-- Initial rep state (src/src/reps/pushupCounter.ts, lines 14-21). -/
def initialRep : RepUpdate :=
  { count := 0, state := .TOP, score := 100, elbowAngle := 180, bottomHold := 0,
    topHold := 2 }

/-- Threshold constant (src/src/reps/pushupCounter.ts, line 23). -/
def ENTER_TOP_ANGLE : ℚ := 160

/-- Threshold constant (src/src/reps/pushupCounter.ts, line 24). -/
def EXIT_TOP_ANGLE : ℚ := 140

/-- Hold-frame debounce constant (src/src/reps/pushupCounter.ts, line 25). -/
def HOLD_FRAMES : ℕ := 2

/-- Depth term of the push-up score (src/src/reps/pushupCounter.ts, line 112):
`Math.max(0, Math.min(1, (160 - Math.min(elbow, 160)) / 90))`. -/
def pushupDepth (elbow : ℚ) : ℚ := max 0 (min 1 ((160 - min elbow 160) / 90))

/-- Angle-to-penalty core of `bodyLinePenalty`
(src/src/reps/pushupCounter.ts, line 35):
`Math.max(0, (165 - Math.min(180, angle)) / 30)`. -/
def linePenaltyOf (a : ℚ) : ℚ := max 0 ((165 - min 180 a) / 30)

/-- Embedding of `bodyLinePenalty` (src/src/reps/pushupCounter.ts,
lines 27-36), parametric in the joint-angle oracle. -/
def bodyLinePenalty (angle : KP → KP → KP → ℚ) (m : String → Option KP) : ℚ :=
  match (m "leftShoulder").orElse (fun _ => m "rightShoulder"),
      (m "leftHip").orElse (fun _ => m "rightHip"),
      (m "leftAnkle").orElse (fun _ => m "rightAnkle") with
  | some s, some h, some a => linePenaltyOf (angle s h a)
  | _, _, _ => 0

/-- Push-up form score (src/src/reps/pushupCounter.ts, lines 114-115):
`Math.round(90 * depth + 10) - Math.round(25 * linePenalty)` clamped by
`Math.max(1, Math.min(100, score))`. -/
def pushupScore (elbow linePenalty : ℚ) : ℤ :=
  max 1 (min 100 (jsRound (90 * pushupDepth elbow + 10) - jsRound (25 * linePenalty)))

/-- Body of `updatePushupFSM` after the joints are resolved and the elbow
angle computed (src/src/reps/pushupCounter.ts, lines 55-124): the switch over
the previous phase, then the score computation.  The tuple is
(count, state, bottomHold, topHold). -/
def pushupStep (prev : RepUpdate) (elbow linePenalty depthThreshold : ℚ) :
    RepUpdate :=
  let enterBottom := depthThreshold
  let exitBottom := min (depthThreshold + 25) 130
  let cs :=
    match prev.state with
    | .TOP =>
      (prev.count,
       if elbow < EXIT_TOP_ANGLE then SquatCounter.RepState.DESCENDING else .TOP,
       0,
       min HOLD_FRAMES (prev.topHold + 1))
    | .DESCENDING =>
      let bh := if elbow < enterBottom then prev.bottomHold + 1 else 0
      let hitBottom := elbow < enterBottom ∧ HOLD_FRAMES ≤ prev.bottomHold + 1
      let st0 := if hitBottom then SquatCounter.RepState.BOTTOM else .DESCENDING
      let bh1 := if hitBottom then HOLD_FRAMES else bh
      let st := if ENTER_TOP_ANGLE < elbow then SquatCounter.RepState.TOP else st0
      (prev.count, st, bh1, 0)
    | .BOTTOM =>
      (prev.count,
       if exitBottom < elbow then SquatCounter.RepState.ASCENDING else .BOTTOM,
       min HOLD_FRAMES (prev.bottomHold + 1),
       0)
    | .ASCENDING =>
      if ENTER_TOP_ANGLE < elbow then
        if HOLD_FRAMES ≤ prev.topHold + 1 then
          (prev.count + 1, SquatCounter.RepState.TOP, 0, HOLD_FRAMES)
        else (prev.count, .ASCENDING, 0, prev.topHold + 1)
      else (prev.count, .ASCENDING, 0, 0)
  { count := cs.1, state := cs.2.1, score := pushupScore elbow linePenalty,
    elbowAngle := elbow, bottomHold := cs.2.2.1, topHold := cs.2.2.2 }

/-- Embedding of `updatePushupFSM` (src/src/reps/pushupCounter.ts,
lines 38-125), parametric in the joint-angle oracle, with the
`depthThreshold` default (70) passed explicitly by callers.  The shoulder
lookups use the source's `??` fallbacks. -/
def updatePushupFSM (angle : KP → KP → KP → ℚ) (prev : RepUpdate)
    (kps : List KP) (depthThreshold : ℚ) : RepUpdate :=
  let m := byName kps
  match m "leftElbow", m "rightElbow", m "leftWrist", m "rightWrist",
      (m "leftShoulder").orElse (fun _ => m "rightShoulder"),
      (m "rightShoulder").orElse (fun _ => m "leftShoulder") with
  | some le, some re, some lw, some rw, some ls, some rs =>
    pushupStep prev (min (angle ls le lw) (angle rs re rw))
      (bodyLinePenalty angle m) depthThreshold
  | _, _, _, _, _, _ => prev

end PushupCounter

theorem jsRound_mono {a b : ℚ} (h : a ≤ b) : jsRound a ≤ jsRound b :=
  Int.floor_le_floor (by linarith)

theorem clampScore_bounds (r : ℤ) :
    1 ≤ max 1 (min 100 r) ∧ max 1 (min 100 r) ≤ 100 :=
  ⟨le_max_left _ _, max_le (by norm_num) (min_le_left _ _)⟩

theorem clampScore_mono {a b : ℤ} (h : a ≤ b) :
    max 1 (min 100 a) ≤ max 1 (min 100 b) :=
  max_le_max le_rfl (min_le_min le_rfl h)

/-- C2 (amended): the scores stored by `squatStep`/`pushupStep` factor
through `squatScore`/`pushupScore`; both are monotonically non-decreasing in
the depth term (fault fixed); the push-up score is non-increasing in the
body-line penalty, which itself grows as the shoulder-hip-ankle angle departs
from straight; the squat score is non-increasing in the medial-collapse
deficit `max(0, 0.1 − offsetSum)` — the quantity the code actually penalizes
— which is ANTITONE in the raw ankle-to-knee x-offset sum, i.e. the squat
score is non-DEcreasing (not non-increasing) in the offset sum named by the
original claim. -/
theorem score_monotonicity :
    (∀ (prev : SquatCounter.RepUpdate) (knee v : ℚ),
        (SquatCounter.squatStep prev knee v).score =
          SquatCounter.squatScore knee v) ∧
    (∀ (prev : PushupCounter.RepUpdate) (e p d : ℚ),
        (PushupCounter.pushupStep prev e p d).score =
          PushupCounter.pushupScore e p) ∧
    (∀ k1 k2 v : ℚ, SquatCounter.squatDepth k1 ≤ SquatCounter.squatDepth k2 →
        SquatCounter.squatScore k1 v ≤ SquatCounter.squatScore k2 v) ∧
    (∀ k v1 v2 : ℚ, max 0 (1/10 - v1) ≤ max 0 (1/10 - v2) →
        SquatCounter.squatScore k v2 ≤ SquatCounter.squatScore k v1) ∧
    (∀ e1 e2 p : ℚ, PushupCounter.pushupDepth e1 ≤ PushupCounter.pushupDepth e2 →
        PushupCounter.pushupScore e1 p ≤ PushupCounter.pushupScore e2 p) ∧
    (∀ e p1 p2 : ℚ, p1 ≤ p2 →
        PushupCounter.pushupScore e p2 ≤ PushupCounter.pushupScore e p1) ∧
    (∀ a1 a2 : ℚ, a1 ≤ a2 →
        PushupCounter.linePenaltyOf a2 ≤ PushupCounter.linePenaltyOf a1) := by
  refine ⟨fun _ _ _ => rfl, fun _ _ _ _ => rfl, ?_, ?_, ?_, ?_, ?_⟩
  · intro k1 k2 v h
    exact clampScore_mono (jsRound_mono (by linarith))
  · intro k v1 v2 h
    exact clampScore_mono (jsRound_mono (by linarith))
  · intro e1 e2 p h
    unfold PushupCounter.pushupScore
    exact clampScore_mono (Int.sub_le_sub_right (jsRound_mono (by linarith)) _)
  · intro e p1 p2 h
    unfold PushupCounter.pushupScore
    exact clampScore_mono (Int.sub_le_sub_left (jsRound_mono (by linarith)) _)
  · intro a1 a2 h
    unfold PushupCounter.linePenaltyOf
    have hm : min 180 a1 ≤ min 180 a2 := min_le_min le_rfl h
    exact max_le_max le_rfl (by linarith)

/-- Degenerate squat skeleton (hip coincides with knee on each leg, so the
source `angleDeg` hits its zero-magnitude guard and returns exactly 180°)
with zero ankle-to-knee x-offset on both legs. -/
def skelA : List KP :=
  [{ x := 0, y := 0, name := some "leftHip" },
   { x := 0, y := 0, name := some "leftKnee" },
   { x := 0, y := 1, name := some "leftAnkle" },
   { x := 1, y := 0, name := some "rightHip" },
   { x := 1, y := 0, name := some "rightKnee" },
   { x := 1, y := 1, name := some "rightAnkle" }]

/-- Same skeleton with the left ankle moved so the ankle-to-knee x-offset sum
is 1 while the knee angles (both degenerate, hence 180°) and therefore the
depth term are unchanged. -/
def skelB : List KP :=
  [{ x := 0, y := 0, name := some "leftHip" },
   { x := 0, y := 0, name := some "leftKnee" },
   { x := 1, y := 1, name := some "leftAnkle" },
   { x := 1, y := 0, name := some "rightHip" },
   { x := 1, y := 0, name := some "rightKnee" },
   { x := 1, y := 1, name := some "rightAnkle" }]

/-- C2 counterexample: with depth fixed (knee angle 180° in both skeletons —
the constant oracle used here agrees with the source `angleDeg` on these
degenerate skeletons, whose zero-length hip-knee segments trigger the
`!mag1 || !mag2` guard), raising the ankle-to-knee x-offset sum from 0 to
1 RAISES the squat score from 60 to 100: the score is not non-increasing
in the offset-sum fault magnitude named by the claim. -/
theorem squat_score_rises_with_offset :
    SquatCounter.squatScore 180 0 = 60 ∧
    SquatCounter.squatScore 180 1 = 100 ∧
    (SquatCounter.updateSquatFSM (fun _ _ _ => 180) SquatCounter.initialRep
      skelA).score = 60 ∧
    (SquatCounter.updateSquatFSM (fun _ _ _ => 180) SquatCounter.initialRep
      skelB).score = 100 := by
  refine ⟨by with_unfolding_all decide, by with_unfolding_all decide,
    by with_unfolding_all decide, by with_unfolding_all decide⟩

/-- Witness for C2: concrete instances of every hypothesis-bearing clause of
`score_monotonicity`. -/
theorem score_monotonicity_witness :
    (SquatCounter.squatDepth 160 ≤ SquatCounter.squatDepth 100 ∧
      SquatCounter.squatScore 160 0 ≤ SquatCounter.squatScore 100 0) ∧
    (max 0 (1/10 - (1/5 : ℚ)) ≤ max 0 (1/10 - (0 : ℚ)) ∧
      SquatCounter.squatScore 160 0 ≤ SquatCounter.squatScore 160 (1/5)) ∧
    (PushupCounter.pushupDepth 160 ≤ PushupCounter.pushupDepth 100 ∧
      PushupCounter.pushupScore 160 0 ≤ PushupCounter.pushupScore 100 0) ∧
    ((0 : ℚ) ≤ 1 ∧
      PushupCounter.pushupScore 100 1 ≤ PushupCounter.pushupScore 100 0) ∧
    ((150 : ℚ) ≤ 170 ∧
      PushupCounter.linePenaltyOf 170 ≤ PushupCounter.linePenaltyOf 150) :=
  ⟨⟨by with_unfolding_all decide,
    score_monotonicity.2.2.1 160 100 0 (by with_unfolding_all decide)⟩,
   ⟨by with_unfolding_all decide,
    score_monotonicity.2.2.2.1 160 (1/5) 0 (by with_unfolding_all decide)⟩,
   ⟨by with_unfolding_all decide,
    score_monotonicity.2.2.2.2.1 160 100 0 (by with_unfolding_all decide)⟩,
   ⟨by with_unfolding_all decide,
    score_monotonicity.2.2.2.2.2.1 100 0 1 (by with_unfolding_all decide)⟩,
   ⟨by with_unfolding_all decide,
    score_monotonicity.2.2.2.2.2.2 150 170 (by with_unfolding_all decide)⟩⟩

/-- C8: a squat update with any of the six required joints missing from the
name map, or a push-up update with a required elbow or wrist missing or with
both shoulders missing (each shoulder lookup falls back to the other side via
`??`, so a single missing shoulder is not a no-op), returns the previous rep
state completely unchanged — every field, as an equality of whole records. -/
theorem updateFSM_missing_joints_noop :
    (∀ (angle : KP → KP → KP → ℚ) (prev : SquatCounter.RepUpdate)
        (kps : List KP),
        (byName kps "leftKnee" = none ∨ byName kps "rightKnee" = none ∨
         byName kps "leftHip" = none ∨ byName kps "rightHip" = none ∨
         byName kps "leftAnkle" = none ∨ byName kps "rightAnkle" = none) →
        SquatCounter.updateSquatFSM angle prev kps = prev) ∧
    (∀ (angle : KP → KP → KP → ℚ) (prev : PushupCounter.RepUpdate)
        (kps : List KP) (d : ℚ),
        (byName kps "leftElbow" = none ∨ byName kps "rightElbow" = none ∨
         byName kps "leftWrist" = none ∨ byName kps "rightWrist" = none ∨
         (byName kps "leftShoulder" = none ∧
          byName kps "rightShoulder" = none)) →
        PushupCounter.updatePushupFSM angle prev kps d = prev) := by
  constructor
  · intro angle prev kps h
    simp only [SquatCounter.updateSquatFSM]
    cases hlk : byName kps "leftKnee" <;> cases hrk : byName kps "rightKnee" <;>
      cases hlh : byName kps "leftHip" <;> cases hrh : byName kps "rightHip" <;>
      cases hla : byName kps "leftAnkle" <;>
      cases hra : byName kps "rightAnkle" <;>
      first
        | rfl
        | simp_all
  · intro angle prev kps d h
    simp only [PushupCounter.updatePushupFSM]
    cases hle : byName kps "leftElbow" <;> cases hre : byName kps "rightElbow" <;>
      cases hlw : byName kps "leftWrist" <;> cases hrw : byName kps "rightWrist" <;>
      cases hls : byName kps "leftShoulder" <;>
      cases hrs : byName kps "rightShoulder" <;>
      first
        | rfl
        | simp_all [Option.orElse]

/-- Witness for C8: the empty keypoint list is missing every joint, and both
updates leave the initial states untouched. -/
theorem updateFSM_missing_joints_noop_witness :
    byName ([] : List KP) "leftKnee" = none ∧
    SquatCounter.updateSquatFSM (fun _ _ _ => 180) SquatCounter.initialRep [] =
      SquatCounter.initialRep ∧
    byName ([] : List KP) "leftElbow" = none ∧
    PushupCounter.updatePushupFSM (fun _ _ _ => 180) PushupCounter.initialRep
      [] 70 = PushupCounter.initialRep :=
  ⟨rfl, updateFSM_missing_joints_noop.1 _ _ _ (Or.inl rfl), rfl,
   updateFSM_missing_joints_noop.2 _ _ _ 70 (Or.inl rfl)⟩

theorem updateSquatFSM_score_propagate (angle : KP → KP → KP → ℚ)
    (prev : SquatCounter.RepUpdate) (kps : List KP)
    (h1 : 1 ≤ prev.score) (h2 : prev.score ≤ 100) :
    1 ≤ (SquatCounter.updateSquatFSM angle prev kps).score ∧
    (SquatCounter.updateSquatFSM angle prev kps).score ≤ 100 := by
  simp only [SquatCounter.updateSquatFSM]
  cases byName kps "leftKnee" <;> cases byName kps "rightKnee" <;>
    cases byName kps "leftHip" <;> cases byName kps "rightHip" <;>
    cases byName kps "leftAnkle" <;> cases byName kps "rightAnkle" <;>
    first
      | exact ⟨h1, h2⟩
      | exact clampScore_bounds _

theorem updatePushupFSM_score_propagate (angle : KP → KP → KP → ℚ)
    (prev : PushupCounter.RepUpdate) (kps : List KP) (d : ℚ)
    (h1 : 1 ≤ prev.score) (h2 : prev.score ≤ 100) :
    1 ≤ (PushupCounter.updatePushupFSM angle prev kps d).score ∧
    (PushupCounter.updatePushupFSM angle prev kps d).score ≤ 100 := by
  simp only [PushupCounter.updatePushupFSM]
  cases byName kps "leftElbow" <;> cases byName kps "rightElbow" <;>
    cases byName kps "leftWrist" <;> cases byName kps "rightWrist" <;>
    cases byName kps "leftShoulder" <;> cases byName kps "rightShoulder" <;>
    first
      | exact ⟨h1, h2⟩
      | exact clampScore_bounds _

theorem foldl_squat_score_bounds (angle : KP → KP → KP → ℚ)
    (frames : List (List KP)) :
    ∀ (s : SquatCounter.RepUpdate), 1 ≤ s.score → s.score ≤ 100 →
      1 ≤ (frames.foldl (SquatCounter.updateSquatFSM angle) s).score ∧
      (frames.foldl (SquatCounter.updateSquatFSM angle) s).score ≤ 100 := by
  induction frames with
  | nil => intro s h1 h2; exact ⟨h1, h2⟩
  | cons f t ih =>
    intro s h1 h2
    have hs := updateSquatFSM_score_propagate angle s f h1 h2
    exact ih _ hs.1 hs.2

theorem foldl_pushup_score_bounds (angle : KP → KP → KP → ℚ) (d : ℚ)
    (frames : List (List KP)) :
    ∀ (s : PushupCounter.RepUpdate), 1 ≤ s.score → s.score ≤ 100 →
      1 ≤ (frames.foldl
        (fun st f => PushupCounter.updatePushupFSM angle st f d) s).score ∧
      (frames.foldl
        (fun st f => PushupCounter.updatePushupFSM angle st f d) s).score ≤ 100 := by
  induction frames with
  | nil => intro s h1 h2; exact ⟨h1, h2⟩
  | cons f t ih =>
    intro s h1 h2
    have hs := updatePushupFSM_score_propagate angle s f d h1 h2
    exact ih _ hs.1 hs.2

/-- C9: with the required joints present the score of the state returned by
`updateSquatFSM`/`updatePushupFSM` is an integer (by type) in [1,100]; the
initial states satisfy the bounds; and along any frame sequence from the
initial state — no-op frames included — every reachable rep state keeps its
score in [1,100]. -/
theorem rep_score_bounds :
    (∀ (angle : KP → KP → KP → ℚ) (prev : SquatCounter.RepUpdate)
        (kps : List KP),
        byName kps "leftKnee" ≠ none → byName kps "rightKnee" ≠ none →
        byName kps "leftHip" ≠ none → byName kps "rightHip" ≠ none →
        byName kps "leftAnkle" ≠ none → byName kps "rightAnkle" ≠ none →
        1 ≤ (SquatCounter.updateSquatFSM angle prev kps).score ∧
        (SquatCounter.updateSquatFSM angle prev kps).score ≤ 100) ∧
    (∀ (angle : KP → KP → KP → ℚ) (prev : PushupCounter.RepUpdate)
        (kps : List KP) (d : ℚ),
        byName kps "leftElbow" ≠ none → byName kps "rightElbow" ≠ none →
        byName kps "leftWrist" ≠ none → byName kps "rightWrist" ≠ none →
        (byName kps "leftShoulder" ≠ none ∨ byName kps "rightShoulder" ≠ none) →
        1 ≤ (PushupCounter.updatePushupFSM angle prev kps d).score ∧
        (PushupCounter.updatePushupFSM angle prev kps d).score ≤ 100) ∧
    (1 ≤ SquatCounter.initialRep.score ∧ SquatCounter.initialRep.score ≤ 100) ∧
    (1 ≤ PushupCounter.initialRep.score ∧ PushupCounter.initialRep.score ≤ 100) ∧
    (∀ (angle : KP → KP → KP → ℚ) (frames : List (List KP)),
        1 ≤ (frames.foldl (SquatCounter.updateSquatFSM angle)
          SquatCounter.initialRep).score ∧
        (frames.foldl (SquatCounter.updateSquatFSM angle)
          SquatCounter.initialRep).score ≤ 100) ∧
    (∀ (angle : KP → KP → KP → ℚ) (d : ℚ) (frames : List (List KP)),
        1 ≤ (frames.foldl
          (fun st f => PushupCounter.updatePushupFSM angle st f d)
          PushupCounter.initialRep).score ∧
        (frames.foldl
          (fun st f => PushupCounter.updatePushupFSM angle st f d)
          PushupCounter.initialRep).score ≤ 100) := by
  refine ⟨?_, ?_, ⟨by norm_num [SquatCounter.initialRep],
      by norm_num [SquatCounter.initialRep]⟩,
    ⟨by norm_num [PushupCounter.initialRep],
      by norm_num [PushupCounter.initialRep]⟩, ?_, ?_⟩
  · intro angle prev kps h1 h2 h3 h4 h5 h6
    simp only [SquatCounter.updateSquatFSM]
    cases hlk : byName kps "leftKnee" <;> cases hrk : byName kps "rightKnee" <;>
      cases hlh : byName kps "leftHip" <;> cases hrh : byName kps "rightHip" <;>
      cases hla : byName kps "leftAnkle" <;>
      cases hra : byName kps "rightAnkle" <;>
      first
        | exact clampScore_bounds _
        | simp_all
  · intro angle prev kps d h1 h2 h3 h4 h5
    simp only [PushupCounter.updatePushupFSM]
    cases hle : byName kps "leftElbow" <;> cases hre : byName kps "rightElbow" <;>
      cases hlw : byName kps "leftWrist" <;> cases hrw : byName kps "rightWrist" <;>
      cases hls : byName kps "leftShoulder" <;>
      cases hrs : byName kps "rightShoulder" <;>
      first
        | exact clampScore_bounds _
        | simp_all
  · intro angle frames
    exact foldl_squat_score_bounds angle frames SquatCounter.initialRep
      (by norm_num [SquatCounter.initialRep]) (by norm_num [SquatCounter.initialRep])
  · intro angle d frames
    exact foldl_pushup_score_bounds angle d frames PushupCounter.initialRep
      (by norm_num [PushupCounter.initialRep]) (by norm_num [PushupCounter.initialRep])

/-- Full-body skeleton with all squat and push-up joints present. -/
def skelFull : List KP :=
  [{ x := 0, y := 0, name := some "leftHip" },
   { x := 1, y := 0, name := some "rightHip" },
   { x := 0, y := 1, name := some "leftKnee" },
   { x := 1, y := 1, name := some "rightKnee" },
   { x := 0, y := 2, name := some "leftAnkle" },
   { x := 1, y := 2, name := some "rightAnkle" },
   { x := 0, y := 3, name := some "leftShoulder" },
   { x := 1, y := 3, name := some "rightShoulder" },
   { x := 0, y := 4, name := some "leftElbow" },
   { x := 1, y := 4, name := some "rightElbow" },
   { x := 0, y := 5, name := some "leftWrist" },
   { x := 1, y := 5, name := some "rightWrist" }]

/-- Witness for C9: both present-joint clauses applied to a concrete
full-body skeleton. -/
theorem rep_score_bounds_witness :
    (1 ≤ (SquatCounter.updateSquatFSM (fun _ _ _ => 180)
        SquatCounter.initialRep skelFull).score ∧
      (SquatCounter.updateSquatFSM (fun _ _ _ => 180)
        SquatCounter.initialRep skelFull).score ≤ 100) ∧
    (1 ≤ (PushupCounter.updatePushupFSM (fun _ _ _ => 180)
        PushupCounter.initialRep skelFull 70).score ∧
      (PushupCounter.updatePushupFSM (fun _ _ _ => 180)
        PushupCounter.initialRep skelFull 70).score ≤ 100) :=
  ⟨rep_score_bounds.1 _ _ _ (by decide) (by decide) (by decide) (by decide)
      (by decide) (by decide),
   rep_score_bounds.2.1 _ _ _ 70 (by decide) (by decide) (by decide) (by decide)
      (Or.inl (by decide))⟩

namespace Smoothing

/-- Raw detector keypoint (src/unnamed/part_006, lines 1-7). -/
structure RawKeypoint where
  x : ℚ
  y : ℚ
  c : Option ℚ := none
  score : Option ℚ := none
  name : Option String := none
  deriving DecidableEq, Repr

/-- Smoothed output keypoint (src/unnamed/part_006, lines 9-14). -/
structure SmoothedKeypoint where
  name : String
  x : ℚ
  y : ℚ
  c : ℚ
  deriving DecidableEq, Repr

/-- Stored per-joint state (src/unnamed/part_006, lines 16-21). -/
structure InternalKP where
  x : ℚ
  y : ℚ
  c : ℚ
  ready : Bool
  deriving DecidableEq, Repr

/-- Constant (src/unnamed/part_006, line 23). -/
def MIN_CONFIDENCE : ℚ := 3/10

/-- Constant (src/unnamed/part_006, line 24). -/
def ALPHA_BASE : ℚ := 35/100

/-- Constant (src/unnamed/part_006, line 25). -/
def MAX_JUMP : ℚ := 15/100

/-- The private `Map` inside the `KPSmoother` class, as a function map. -/
def SmootherState := String → Option InternalKP

/-- The confidence-adaptive smoothing factor
(src/unnamed/part_006, lines 55-58):
`Math.min(0.95, Math.max(0.05, ALPHA_BASE * (1.2 - confidence)))`. -/
def smootherAlpha (confidence : ℚ) : ℚ :=
  min (95/100) (max (5/100) (ALPHA_BASE * (12/10 - confidence)))

/-- The per-axis delta actually stored after the jump-limiting step
(src/unnamed/part_006, lines 60-68), as a function of the smoothing factor
and the raw delta `d`: the smoothed delta `alpha*d` is clamped to `MAX_JUMP`
in its own direction when its magnitude exceeds `MAX_JUMP`. -/
def clampDelta (alpha d : ℚ) : ℚ :=
  if MAX_JUMP < |alpha * d| then jsSign (alpha * d) * MAX_JUMP else alpha * d

/-- One iteration of the loop body of `KPSmoother.step`
(src/unnamed/part_006, lines 37-77): the updated map and the emitted point
(`none` when the point is skipped).  JS falsiness of `kp.name` covers
`undefined` and the empty string. -/
def smootherStepOne (st : SmootherState) (kp : RawKeypoint) :
    SmootherState × Option SmoothedKeypoint :=
  match kp.name with
  | none => (st, none)
  | some name =>
    if name = "" then (st, none)
    else
      let confidence := kp.c.getD 1
      if confidence < MIN_CONFIDENCE then (st, none)
      else
        match st name with
        | none =>
          let entry : InternalKP :=
            { x := kp.x, y := kp.y, c := confidence, ready := true }
          (fun n => if n = name then some entry else st n,
           some { name := name, x := kp.x, y := kp.y, c := confidence })
        | some stored =>
          let alpha := smootherAlpha confidence
          let nx0 := stored.x + alpha * (kp.x - stored.x)
          let ny0 := stored.y + alpha * (kp.y - stored.y)
          let nx := if MAX_JUMP < |nx0 - stored.x| then
              stored.x + jsSign (nx0 - stored.x) * MAX_JUMP else nx0
          let ny := if MAX_JUMP < |ny0 - stored.y| then
              stored.y + jsSign (ny0 - stored.y) * MAX_JUMP else ny0
          let nc := (stored.c + confidence) / 2
          let entry : InternalKP := { x := nx, y := ny, c := nc, ready := true }
          (fun n => if n = name then some entry else st n,
           some { name := name, x := nx, y := ny, c := nc })

/-- Embedding of `KPSmoother.step` (src/unnamed/part_006, lines 34-80) over a
frame batch, with the mutable map threaded explicitly. -/
def smootherStep (st : SmootherState) (points : List RawKeypoint) :
    SmootherState × List SmoothedKeypoint :=
  points.foldl
    (fun acc kp =>
      let r := smootherStepOne acc.1 kp
      (r.1, acc.2 ++ r.2.toList))
    (st, [])

end Smoothing

theorem jsSign_pos {d : ℚ} (h : 0 < d) : jsSign d = 1 := if_pos h

theorem jsSign_neg {d : ℚ} (h : d < 0) : jsSign d = -1 := by
  unfold jsSign
  rw [if_neg (by linarith), if_pos h]

theorem jsSign_mul_left {a : ℚ} (ha : 0 < a) (d : ℚ) :
    jsSign (a * d) = jsSign d := by
  rcases lt_trichotomy 0 d with h | h | h
  · rw [jsSign_pos (mul_pos ha h), jsSign_pos h]
  · rw [← h, mul_zero]
  · rw [jsSign_neg (mul_neg_of_pos_of_neg ha h), jsSign_neg h]

namespace Smoothing

theorem smootherAlpha_pos (c : ℚ) : 0 < smootherAlpha c := by
  unfold smootherAlpha
  apply lt_min
  · norm_num
  · exact lt_of_lt_of_le (by norm_num) (le_max_left _ _)

theorem clampDelta_abs_le (alpha d : ℚ) : |clampDelta alpha d| ≤ MAX_JUMP := by
  unfold clampDelta
  split
  · rename_i h
    have hne : alpha * d ≠ 0 := by
      intro h0
      rw [h0] at h
      norm_num [MAX_JUMP] at h
    rcases lt_trichotomy 0 (alpha * d) with hp | hz | hn
    · rw [jsSign_pos hp, one_mul,
        abs_of_nonneg (by norm_num [MAX_JUMP] : (0:ℚ) ≤ MAX_JUMP)]
    · exact absurd hz.symm hne
    · rw [jsSign_neg hn, neg_one_mul, abs_neg,
        abs_of_nonneg (by norm_num [MAX_JUMP] : (0:ℚ) ≤ MAX_JUMP)]
  · rename_i h
    exact le_of_not_lt h

theorem clampDelta_clamped {alpha d : ℚ} (ha : 0 < alpha)
    (h : MAX_JUMP < |alpha * d|) :
    clampDelta alpha d = jsSign d * MAX_JUMP ∧
    |clampDelta alpha d| = MAX_JUMP ∧
    jsSign (clampDelta alpha d) = jsSign d := by
  have hne : alpha * d ≠ 0 := by
    intro h0
    rw [h0] at h
    norm_num [MAX_JUMP] at h
  have hd : d ≠ 0 := by
    intro h0
    exact hne (by rw [h0, mul_zero])
  have h1 : clampDelta alpha d = jsSign d * MAX_JUMP := by
    unfold clampDelta
    rw [if_pos h, jsSign_mul_left ha]
  refine ⟨h1, ?_, ?_⟩
  · rw [h1]
    rcases lt_trichotomy 0 d with hp | hz | hn
    · rw [jsSign_pos hp, one_mul,
        abs_of_nonneg (by norm_num [MAX_JUMP] : (0:ℚ) ≤ MAX_JUMP)]
    · exact absurd hz.symm hd
    · rw [jsSign_neg hn, neg_one_mul, abs_neg,
        abs_of_nonneg (by norm_num [MAX_JUMP] : (0:ℚ) ≤ MAX_JUMP)]
  · rw [h1]
    rcases lt_trichotomy 0 d with hp | hz | hn
    · rw [jsSign_pos hp, one_mul, jsSign_pos (by norm_num [MAX_JUMP] : (0:ℚ) < MAX_JUMP)]
    · exact absurd hz.symm hd
    · rw [jsSign_neg hn, neg_one_mul,
        jsSign_neg (by norm_num [MAX_JUMP] : -MAX_JUMP < (0:ℚ))]

theorem smootherStepOne_stored (st : SmootherState) (kp : RawKeypoint)
    (nm : String) (stored : InternalKP)
    (hname : kp.name = some nm) (h0 : ¬ nm = "")
    (hconf : ¬ kp.c.getD 1 < MIN_CONFIDENCE) (hst : st nm = some stored) :
    (smootherStepOne st kp).1 nm = some
      { x := stored.x + clampDelta (smootherAlpha (kp.c.getD 1)) (kp.x - stored.x),
        y := stored.y + clampDelta (smootherAlpha (kp.c.getD 1)) (kp.y - stored.y),
        c := (stored.c + kp.c.getD 1) / 2, ready := true } := by
  simp only [smootherStepOne, hname, if_neg h0, if_neg hconf, hst]
  simp only [if_true, Option.some.injEq, InternalKP.mk.injEq]
  have hxx : stored.x + smootherAlpha (kp.c.getD 1) * (kp.x - stored.x) - stored.x =
      smootherAlpha (kp.c.getD 1) * (kp.x - stored.x) := by ring
  have hyy : stored.y + smootherAlpha (kp.c.getD 1) * (kp.y - stored.y) - stored.y =
      smootherAlpha (kp.c.getD 1) * (kp.y - stored.y) := by ring
  rw [hxx, hyy]
  refine ⟨?_, ?_, trivial, trivial⟩
  · by_cases hc : MAX_JUMP < |smootherAlpha (kp.c.getD 1) * (kp.x - stored.x)|
    · rw [if_pos hc, clampDelta, if_pos hc]
    · rw [if_neg hc, clampDelta, if_neg hc]
  · by_cases hc : MAX_JUMP < |smootherAlpha (kp.c.getD 1) * (kp.y - stored.y)|
    · rw [if_pos hc, clampDelta, if_pos hc]
    · rw [if_neg hc, clampDelta, if_neg hc]

end Smoothing

namespace Smoothing

/-- C6 (amended): with a stored joint state and a raw observation that passes
the confidence floor, the new per-axis stored delta is exactly
`clampDelta α d` — the SMOOTHED delta `α·(raw − stored)` clamped to
`MAX_JUMP`; when the smoothed delta's magnitude exceeds `MAX_JUMP` the
resulting delta is exactly `MAX_JUMP` in the direction of the raw delta, and
in every case the resulting delta never exceeds `MAX_JUMP` in magnitude.
(The original claim's trigger — the RAW delta exceeding the constant — is
refuted separately: a raw delta can exceed 0.15 while the smoothed delta
stays below it.) -/
theorem smoother_jump_clamp (st : SmootherState) (kp : RawKeypoint)
    (nm : String) (stored : InternalKP)
    (hname : kp.name = some nm) (h0 : ¬ nm = "")
    (hconf : ¬ kp.c.getD 1 < MIN_CONFIDENCE) (hst : st nm = some stored) :
    (smootherStepOne st kp).1 nm = some
      { x := stored.x + clampDelta (smootherAlpha (kp.c.getD 1)) (kp.x - stored.x),
        y := stored.y + clampDelta (smootherAlpha (kp.c.getD 1)) (kp.y - stored.y),
        c := (stored.c + kp.c.getD 1) / 2, ready := true } ∧
    (∀ alpha dd : ℚ, |clampDelta alpha dd| ≤ MAX_JUMP) ∧
    (∀ alpha dd : ℚ, 0 < alpha → MAX_JUMP < |alpha * dd| →
      clampDelta alpha dd = jsSign dd * MAX_JUMP ∧
      |clampDelta alpha dd| = MAX_JUMP ∧
      jsSign (clampDelta alpha dd) = jsSign dd) ∧
    0 < smootherAlpha (kp.c.getD 1) :=
  ⟨smootherStepOne_stored st kp nm stored hname h0 hconf hst,
   fun a dd => clampDelta_abs_le a dd,
   fun _ _ ha h => clampDelta_clamped ha h,
   smootherAlpha_pos _⟩

/-- Stored smoother state for the C6 examples: one joint at the origin with
confidence 1. -/
def c6state : SmootherState :=
  fun n => if n = "nose" then some { x := 0, y := 0, c := 1, ready := true } else none

/-- Raw observation whose x jumps by 1/5 (beyond MAX_JUMP = 3/20) at
confidence 1, so the smoothing factor is 7/100 and the smoothed delta is only
7/500. -/
def c6raw : RawKeypoint := { x := 1/5, y := 0, c := some 1, name := some "nose" }

set_option maxRecDepth 8192 in
/-- C6 counterexample: the raw per-axis delta (1/5) exceeds the max-jump
constant, yet the resulting smoothed delta is 7/500 — strictly below the
constant and not equal to it — because the clamp tests the smoothed delta
`α·raw`, not the raw delta. -/
theorem smoother_raw_jump_not_clamped :
    MAX_JUMP < |c6raw.x - 0| ∧
    (smootherStepOne c6state c6raw).2 =
      some { name := "nose", x := 7/500, y := 0, c := 1 } ∧
    (7/500 : ℚ) ≠ MAX_JUMP ∧ |(7/500 : ℚ)| < MAX_JUMP := by
  refine ⟨by with_unfolding_all decide, by with_unfolding_all decide,
    by with_unfolding_all decide, by with_unfolding_all decide⟩

/-- Raw observation with a jump of 10, whose smoothed delta 7/10 does exceed
MAX_JUMP and is clamped. -/
def c6raw2 : RawKeypoint := { x := 10, y := 0, c := some 1, name := some "nose" }

set_option maxRecDepth 8192 in
/-- Witness for C6: the amended clamp theorem applied to the concrete stored
state and the big-jump observation. -/
theorem smoother_jump_clamp_witness :
    c6raw2.name = some "nose" ∧ ¬ ("nose" : String) = "" ∧
    ¬ c6raw2.c.getD 1 < MIN_CONFIDENCE ∧
    c6state "nose" = some { x := 0, y := 0, c := 1, ready := true } ∧
    (smootherStepOne c6state c6raw2).1 "nose" = some
      { x := (0:ℚ) + clampDelta (smootherAlpha (c6raw2.c.getD 1)) (c6raw2.x - 0),
        y := (0:ℚ) + clampDelta (smootherAlpha (c6raw2.c.getD 1)) (c6raw2.y - 0),
        c := ((1:ℚ) + c6raw2.c.getD 1) / 2, ready := true } :=
  ⟨rfl, by decide, by with_unfolding_all decide, by with_unfolding_all decide,
   (smoother_jump_clamp c6state c6raw2 "nose" { x := 0, y := 0, c := 1, ready := true }
      rfl (by decide) (by with_unfolding_all decide)
      (by with_unfolding_all decide)).1⟩

end Smoothing

namespace Technique

/-- Baseline record (src/src/pose/technique.ts, lines 10-14). -/
structure StanceBaseline where
  leftMedial : ℚ
  rightMedial : ℚ
  stanceWidth : ℚ
  deriving DecidableEq, Repr

/-- Calibration accumulator (src/src/pose/technique.ts, lines 16-24). -/
structure StanceCalib where
  startedAt : ℚ
  durationMs : ℚ
  totalSamples : ℕ
  goodSamples : ℕ
  sumLeftMedial : ℚ
  sumRightMedial : ℚ
  sumStanceWidth : ℚ
  deriving DecidableEq, Repr

/-- Per-sample leg measurements (src/src/pose/technique.ts, lines 36-42). -/
structure LegMeasurements where
  leftMedial : ℚ
  rightMedial : ℚ
  stanceWidth : ℚ
  leftFlex : ℚ
  rightFlex : ℚ
  deriving DecidableEq, Repr

/-- Constant (src/src/pose/technique.ts, line 5). -/
def MIN_CONFIDENCE : ℚ := 1/2

/-- Constant (src/src/pose/technique.ts, line 7). -/
def DEFAULT_MIN_STANCE_WIDTH : ℚ := 6/100

/-- Constant (src/src/pose/technique.ts, line 8). -/
def DEFAULT_CALIBRATION_MS : ℚ := 2000

/-- Embedding of `startStanceCalib` (src/src/pose/technique.ts,
lines 44-57). -/
def startStanceCalib (durationMs now : ℚ) : StanceCalib :=
  { startedAt := now, durationMs := durationMs, totalSamples := 0,
    goodSamples := 0, sumLeftMedial := 0, sumRightMedial := 0,
    sumStanceWidth := 0 }

/-- The per-point test of the confidence gate inside `measureLegs`
(src/src/pose/technique.ts, line 164): `p.score != null && p.score < 0.5`. -/
def lowConf (k : KP) : Bool :=
  match k.score with
  | some s => decide (s < MIN_CONFIDENCE)
  | none => false

/-- Embedding of `measureLegs` (src/src/pose/technique.ts, lines 150-200):
the joint lookups and the confidence gate are exact; the geometric tail
(lines 168-199: pelvis distance via `Math.hypot`, axis projection, flex
angles via `angleDeg`, including the `pelvis < 1e-3` null guard) is the
parameter `geom`, whose `Option` result covers that guard. -/
def measureLegs (geom : KP → KP → KP → KP → KP → KP → Option LegMeasurements)
    (keypoints : List KP) : Option LegMeasurements :=
  let m := byName keypoints
  match m "leftHip", m "rightHip", m "leftKnee", m "rightKnee", m "leftAnkle",
      m "rightAnkle" with
  | some lh, some rh, some lk, some rk, some la, some ra =>
    if lowConf lh || lowConf rh || lowConf lk || lowConf rk || lowConf la ||
        lowConf ra then none
    else geom lh rh lk rk la ra
  | _, _, _, _, _, _ => none

/-- Embedding of `updateStanceCalib` (src/src/pose/technique.ts,
lines 59-80). -/
def updateStanceCalib (geom : KP → KP → KP → KP → KP → KP → Option LegMeasurements)
    (calib : StanceCalib) (keypoints : List KP) : StanceCalib :=
  let next := { calib with totalSamples := calib.totalSamples + 1 }
  match measureLegs geom keypoints with
  | none => next
  | some ms =>
    { next with
      goodSamples := next.goodSamples + 1
      sumLeftMedial := next.sumLeftMedial + ms.leftMedial
      sumRightMedial := next.sumRightMedial + ms.rightMedial
      sumStanceWidth := next.sumStanceWidth + ms.stanceWidth }

/-- Embedding of `finalizeStanceCalib` (src/src/pose/technique.ts,
lines 82-111).  The `Number.isFinite` guards on the three averages are
modelled by the `goodSamples = 0` test — division by zero is the only source
of a non-finite average in exact arithmetic. -/
def finalizeStanceCalib (calib : StanceCalib) (minGoodSamples : ℕ)
    (minStanceWidth : ℚ) : Option StanceBaseline :=
  if calib.goodSamples < minGoodSamples then none
  else
    let leftMedial := calib.sumLeftMedial / (calib.goodSamples : ℚ)
    let rightMedial := calib.sumRightMedial / (calib.goodSamples : ℚ)
    let stanceWidth := calib.sumStanceWidth / (calib.goodSamples : ℚ)
    if calib.goodSamples = 0 ∨ stanceWidth < minStanceWidth then none
    else some { leftMedial := leftMedial, rightMedial := rightMedial,
                stanceWidth := stanceWidth }

/-- A frame fails the confidence check of `measureLegs`: some required joint
is absent from the name map, or some present joint carries a score below
0.5. -/
def failsConfidenceCheck (keypoints : List KP) : Bool :=
  let m := byName keypoints
  match m "leftHip", m "rightHip", m "leftKnee", m "rightKnee", m "leftAnkle",
      m "rightAnkle" with
  | some lh, some rh, some lk, some rk, some la, some ra =>
    lowConf lh || lowConf rh || lowConf lk || lowConf rk || lowConf la ||
      lowConf ra
  | _, _, _, _, _, _ => true

theorem measureLegs_none_of_fails
    (geom : KP → KP → KP → KP → KP → KP → Option LegMeasurements)
    (kps : List KP) (h : failsConfidenceCheck kps = true) :
    measureLegs geom kps = none := by
  simp only [failsConfidenceCheck] at h
  simp only [measureLegs]
  cases h1 : byName kps "leftHip" <;> cases h2 : byName kps "rightHip" <;>
    cases h3 : byName kps "leftKnee" <;> cases h4 : byName kps "rightKnee" <;>
    cases h5 : byName kps "leftAnkle" <;> cases h6 : byName kps "rightAnkle" <;>
    simp_all

theorem calib_fold_counts
    (geom : KP → KP → KP → KP → KP → KP → Option LegMeasurements)
    (frames : List (List KP)) :
    ∀ (s : StanceCalib), (∀ f ∈ frames, failsConfidenceCheck f = true) →
      (frames.foldl (updateStanceCalib geom) s).goodSamples = s.goodSamples ∧
      (frames.foldl (updateStanceCalib geom) s).totalSamples =
        s.totalSamples + frames.length := by
  induction frames with
  | nil => intro s _; simp
  | cons f t ih =>
    intro s hall
    have hf : failsConfidenceCheck f = true := hall f (List.mem_cons_self f t)
    have hstep : updateStanceCalib geom s f =
        { s with totalSamples := s.totalSamples + 1 } := by
      simp only [updateStanceCalib, measureLegs_none_of_fails geom f hf]
    rw [List.foldl_cons, hstep]
    have h := ih { s with totalSamples := s.totalSamples + 1 }
      (fun b hb => hall b (List.mem_cons_of_mem f hb))
    refine ⟨h.1, ?_⟩
    rw [h.2]
    simp [List.length_cons]
    omega

theorem finalize_none_of_no_good (c : StanceCalib) (h : c.goodSamples = 0) :
    ∀ (mg : ℕ) (mw : ℚ), finalizeStanceCalib c mg mw = none := by
  intro mg mw
  unfold finalizeStanceCalib
  by_cases hlt : c.goodSamples < mg
  · rw [if_pos hlt]
  · rw [if_neg hlt, if_pos (Or.inl h)]

/-- C7: from a fresh accumulator, any update stream in which every frame
fails the confidence check (a required joint among hips/knees/ankles absent,
or present with score below 0.5) leaves `goodSamples` at 0 while
`totalSamples` counts every frame, and `finalizeStanceCalib` on the result
returns `none` for every `minGoodSamples`/`minStanceWidth` — in particular
for the defaults (20, 0.06) — regardless of how large `totalSamples` is. -/
theorem calib_confidence_gating
    (geom : KP → KP → KP → KP → KP → KP → Option LegMeasurements)
    (d n : ℚ) (frames : List (List KP))
    (hall : ∀ f ∈ frames, failsConfidenceCheck f = true) :
    (frames.foldl (updateStanceCalib geom) (startStanceCalib d n)).goodSamples
        = 0 ∧
    (frames.foldl (updateStanceCalib geom) (startStanceCalib d n)).totalSamples
        = frames.length ∧
    ∀ (mg : ℕ) (mw : ℚ),
      finalizeStanceCalib
        (frames.foldl (updateStanceCalib geom) (startStanceCalib d n)) mg mw
        = none := by
  have h := calib_fold_counts geom frames (startStanceCalib d n) hall
  have hg : (frames.foldl (updateStanceCalib geom)
      (startStanceCalib d n)).goodSamples = 0 := by
    rw [h.1]
    rfl
  refine ⟨hg, ?_, finalize_none_of_no_good _ hg⟩
  rw [h.2]
  simp [startStanceCalib]

/-- A frame whose six stance joints are present but all carry confidence 0
(below the 0.5 floor). -/
def lowConfFrame : List KP :=
  [{ x := 0, y := 0, score := some 0, name := some "leftHip" },
   { x := 1, y := 0, score := some 0, name := some "rightHip" },
   { x := 0, y := 1, score := some 0, name := some "leftKnee" },
   { x := 1, y := 1, score := some 0, name := some "rightKnee" },
   { x := 0, y := 2, score := some 0, name := some "leftAnkle" },
   { x := 1, y := 2, score := some 0, name := some "rightAnkle" }]

/-- Witness for C7: three frames — an empty one, a low-confidence one, and
another empty one — all fail the check; the fold keeps goodSamples 0, counts
3 total samples, and finalization with the default thresholds returns
`none`. -/
theorem calib_confidence_gating_witness :
    (∀ f ∈ [([] : List KP), lowConfFrame, []], failsConfidenceCheck f = true) ∧
    ([([] : List KP), lowConfFrame, []].foldl
        (updateStanceCalib (fun _ _ _ _ _ _ => none)) (startStanceCalib 2000 0)
      ).goodSamples = 0 ∧
    finalizeStanceCalib
      ([([] : List KP), lowConfFrame, []].foldl
        (updateStanceCalib (fun _ _ _ _ _ _ => none)) (startStanceCalib 2000 0))
      20 DEFAULT_MIN_STANCE_WIDTH = none := by
  have hall : ∀ f ∈ [([] : List KP), lowConfFrame, []],
      failsConfidenceCheck f = true := by
    intro f hf
    fin_cases hf
    · decide
    · with_unfolding_all decide
    · decide
  have h := calib_confidence_gating (fun _ _ _ _ _ _ => none) 2000 0
    [([] : List KP), lowConfFrame, []] hall
  exact ⟨hall, h.1, h.2.2 20 DEFAULT_MIN_STANCE_WIDTH⟩

end Technique

namespace ExerciseSession

/-- Valgus rule record consumed by the session orchestrator
(`ValgusRule`, src/src/pose/utils.ts second document, lines 47-54). -/
structure ValgusRule where
  kneeSepMin : ℚ
  kneeSepClear : ℚ
  persistMs : ℚ
  minFlexDeg : ℚ
  maxFlexDeg : ℚ
  minConf : ℚ
  deriving DecidableEq, Repr

/-- Default rule (src/src/pose/utils.ts second document, lines 56-63). -/
def DEFAULT_VALGUS_RULE : ValgusRule :=
  { kneeSepMin := 85/100, kneeSepClear := 88/100, persistMs := 300,
    minFlexDeg := 20, maxFlexDeg := 110, minConf := 6/10 }

/-- Valgus sample record (`ValgusSample`, src/src/pose/utils.ts second
document, lines 65-72), as produced by `evaluateValgus` and consumed by the
per-frame cue logic. -/
structure ValgusSample where
  kneeSep : ℚ
  hipWidth : ℚ
  kneeSepNorm : ℚ
  flexLeft : ℚ
  flexRight : ℚ
  confident : Bool
  deriving DecidableEq, Repr

/-- The ref-cell state of the valgus cue engine inside `useExerciseSession`
(src/src/reps/useExerciseSession.ts, lines 65-76), threaded explicitly:
`lastRepStateRef`, `lastRepCountRef`, `repContextRef.kneesCueFired`,
`valgusHoldRef`, `valgusBelowRef`, `lastTechniqueCueAt`. -/
structure CueState where
  lastRepState : SquatCounter.RepState
  lastRepCount : ℕ
  kneesCueFired : Bool
  valgusHold : Option ℚ
  valgusBelow : Bool
  lastTechniqueCueAt : ℚ
  deriving DecidableEq, Repr

/-- Initial ref values (src/src/reps/useExerciseSession.ts, lines 65-76). -/
def initialCueState : CueState :=
  { lastRepState := .TOP, lastRepCount := 0, kneesCueFired := false,
    valgusHold := none, valgusBelow := false, lastTechniqueCueAt := 0 }

/-- The state-change and count-change blocks of the frame effect
(src/src/reps/useExerciseSession.ts, lines 208-231): on a phase change into
TOP, and on any rep-count change, the fired-for-rep flag and the valgus hold
are cleared. -/
def cueStateBlocks (st : CueState) (nextState : SquatCounter.RepState)
    (nextCount : ℕ) : CueState :=
  let st1 :=
    if nextState ≠ st.lastRepState then
      if nextState = SquatCounter.RepState.TOP then
        { st with
          kneesCueFired := false
          valgusHold := none
          valgusBelow := false
          lastRepState := nextState }
      else { st with lastRepState := nextState }
    else st
  if nextCount ≠ st1.lastRepCount then
    { st1 with
      lastRepCount := nextCount
      kneesCueFired := false
      valgusHold := none
      valgusBelow := false }
  else st1

/-- JS falsiness of `valgusHoldRef.current` (a number-or-null ref): `null`
and `0` both restart the hold timer. -/
def holdFalsy : Option ℚ → Bool
  | none => true
  | some t => decide (t = 0)

/-- The valgus-cue block of the frame effect for the squat path
(src/src/reps/useExerciseSession.ts, lines 233-290), with the
`evaluateValgus` result abstracted as the `sample` input (its
`Math.hypot`-based geometry is not exactly representable over `ℚ`; the cue
logic consumes only the fields modelled here).  Returns the updated state
and whether the `knees out` cue fired. -/
def cueValgusBlock (rule : ValgusRule) (cueCooldownMs : ℚ)
    (baselineReady enableTechniqueCues : Bool) (st : CueState)
    (nextState : SquatCounter.RepState) (sample : Option ValgusSample)
    (now : ℚ) : CueState × Bool :=
  let inCritical := nextState = SquatCounter.RepState.DESCENDING ∨
    nextState = SquatCounter.RepState.BOTTOM
  if enableTechniqueCues then
    let confident := match sample with
      | some s => s.confident
      | none => false
    let flexOk := match sample with
      | some s => decide (rule.minFlexDeg ≤ min s.flexLeft s.flexRight) &&
          decide (min s.flexLeft s.flexRight ≤ rule.maxFlexDeg)
      | none => false
    let belowThreshold := match sample with
      | some s => decide (s.kneeSepNorm < rule.kneeSepMin)
      | none => false
    let clearThreshold := match sample with
      | some s => decide (rule.kneeSepClear < s.kneeSepNorm)
      | none => false
    if baselineReady = true ∧ inCritical ∧ confident = true ∧ flexOk = true then
      if belowThreshold = true then
        let hold1 := if holdFalsy st.valgusHold then some now else st.valgusHold
        let heldLongEnough := match hold1 with
          | some t => decide (rule.persistMs ≤ now - t)
          | none => false
        if heldLongEnough = true ∧ st.kneesCueFired = false ∧
            cueCooldownMs < now - st.lastTechniqueCueAt then
          ({ st with
            valgusHold := hold1
            valgusBelow := true
            lastTechniqueCueAt := now
            kneesCueFired := true }, true)
        else ({ st with valgusHold := hold1, valgusBelow := true }, false)
      else if clearThreshold = true then
        ({ st with valgusHold := none, valgusBelow := false }, false)
      else if st.valgusBelow = false then
        ({ st with valgusHold := none }, false)
      else (st, false)
    else ({ st with valgusHold := none, valgusBelow := false }, false)
  else (st, false)

/-- One frame of the cue engine: the state/count blocks followed by the
valgus block, as executed by the frame effect. -/
def cueStep (rule : ValgusRule) (cueCooldownMs : ℚ)
    (baselineReady enableTechniqueCues : Bool) (st : CueState)
    (nextState : SquatCounter.RepState) (nextCount : ℕ)
    (sample : Option ValgusSample) (now : ℚ) : CueState × Bool :=
  cueValgusBlock rule cueCooldownMs baselineReady enableTechniqueCues
    (cueStateBlocks st nextState nextCount) nextState sample now

/-- One per-frame input to the cue engine: the FSM result (phase, count),
the valgus sample and the timestamp. -/
structure CueFrame where
  nextState : SquatCounter.RepState
  nextCount : ℕ
  sample : Option ValgusSample
  now : ℚ
  deriving DecidableEq, Repr

/-- Run the cue engine over a frame sequence, counting `knees out` fires. -/
def runCue (rule : ValgusRule) (cueCooldownMs : ℚ)
    (baselineReady enableTechniqueCues : Bool) :
    CueState → List CueFrame → CueState × ℕ
  | st, [] => (st, 0)
  | st, f :: t =>
    let r := cueStep rule cueCooldownMs baselineReady enableTechniqueCues st
      f.nextState f.nextCount f.sample f.now
    let rest := runCue rule cueCooldownMs baselineReady enableTechniqueCues r.1 t
    (rest.1, (if r.2 then 1 else 0) + rest.2)

theorem cueValgus_fired_eq (rule : ValgusRule) (cd : ℚ) (b e : Bool)
    (st : CueState) (ns : SquatCounter.RepState) (sample : Option ValgusSample)
    (now : ℚ) :
    (cueValgusBlock rule cd b e st ns sample now).1.kneesCueFired =
      (st.kneesCueFired || (cueValgusBlock rule cd b e st ns sample now).2) := by
  unfold cueValgusBlock
  cases e <;> cases sample <;> simp only [Bool.false_eq_true, if_false] <;>
    (try split_ifs) <;> simp_all

theorem cueValgus_keeps (rule : ValgusRule) (cd : ℚ) (b e : Bool)
    (st : CueState) (ns : SquatCounter.RepState) (sample : Option ValgusSample)
    (now : ℚ) :
    (cueValgusBlock rule cd b e st ns sample now).1.lastRepCount =
      st.lastRepCount ∧
    (cueValgusBlock rule cd b e st ns sample now).1.lastRepState =
      st.lastRepState := by
  unfold cueValgusBlock
  cases e <;> cases sample <;> simp only [Bool.false_eq_true, if_false] <;>
    (try split_ifs) <;> simp_all

theorem cueValgus_fire_requires (rule : ValgusRule) (cd : ℚ) (b e : Bool)
    (st : CueState) (ns : SquatCounter.RepState) (sample : Option ValgusSample)
    (now : ℚ) (h : (cueValgusBlock rule cd b e st ns sample now).2 = true) :
    st.kneesCueFired = false := by
  unfold cueValgusBlock at h
  cases e <;> cases sample <;> simp only [Bool.false_eq_true, if_false] at h <;>
    (try split_ifs at h) <;> simp_all

theorem cueBlocks_nonclearing (st : CueState) (ns : SquatCounter.RepState)
    (nc : ℕ) (hns : ns ≠ SquatCounter.RepState.TOP)
    (hc : nc = st.lastRepCount) :
    (cueStateBlocks st ns nc).kneesCueFired = st.kneesCueFired ∧
    (cueStateBlocks st ns nc).lastRepCount = st.lastRepCount := by
  unfold cueStateBlocks
  split_ifs <;> simp_all

theorem cueBlocks_clear_origin (st : CueState) (ns : SquatCounter.RepState)
    (nc : ℕ) (h : (cueStateBlocks st ns nc).kneesCueFired = false)
    (hf : st.kneesCueFired = true) :
    (ns = SquatCounter.RepState.TOP ∧ ns ≠ st.lastRepState) ∨
      nc ≠ st.lastRepCount := by
  by_cases hnc : nc = st.lastRepCount
  · by_cases htop : ns = SquatCounter.RepState.TOP
    · by_cases hlast : ns = st.lastRepState
      · exfalso
        have hkeep : (cueStateBlocks st ns nc).kneesCueFired = true := by
          simp [cueStateBlocks, hlast, hnc, hf]
        rw [h] at hkeep
        exact Bool.noConfusion hkeep
      · exact Or.inl ⟨htop, hlast⟩
    · exfalso
      have hkeep : (cueStateBlocks st ns nc).kneesCueFired = true := by
        by_cases hlast : ns = st.lastRepState
        · simp [cueStateBlocks, hlast, hnc, hf]
        · simp [cueStateBlocks, hlast, htop, hnc, hf]
      rw [h] at hkeep
      exact Bool.noConfusion hkeep
  · exact Or.inr hnc

theorem runCue_no_fire (rule : ValgusRule) (cd : ℚ) (b e : Bool)
    (frames : List CueFrame) :
    ∀ (st : CueState),
      (∀ f ∈ frames, f.nextState ≠ SquatCounter.RepState.TOP) →
      (∀ f ∈ frames, f.nextCount = st.lastRepCount) →
      st.kneesCueFired = true →
      (runCue rule cd b e st frames).2 = 0 := by
  induction frames with
  | nil => intro st _ _ _; rfl
  | cons f t ih =>
    intro st hns hnc hf
    have hfm : f.nextState ≠ SquatCounter.RepState.TOP :=
      hns f (List.mem_cons_self f t)
    have hcm : f.nextCount = st.lastRepCount := hnc f (List.mem_cons_self f t)
    have hb := cueBlocks_nonclearing st f.nextState f.nextCount hfm hcm
    have hf1 : (cueStateBlocks st f.nextState f.nextCount).kneesCueFired = true := by
      rw [hb.1]; exact hf
    have hnofire : (cueStep rule cd b e st f.nextState f.nextCount f.sample
        f.now).2 = false := by
      by_cases hr : (cueStep rule cd b e st f.nextState f.nextCount f.sample
          f.now).2 = true
      · exfalso
        have := cueValgus_fire_requires rule cd b e
          (cueStateBlocks st f.nextState f.nextCount) f.nextState f.sample f.now hr
        rw [hf1] at this
        exact Bool.noConfusion this
      · exact Bool.eq_false_iff.mpr hr
    have hfired1 : (cueStep rule cd b e st f.nextState f.nextCount f.sample
        f.now).1.kneesCueFired = true := by
      have := cueValgus_fired_eq rule cd b e
        (cueStateBlocks st f.nextState f.nextCount) f.nextState f.sample f.now
      unfold cueStep
      rw [this, hf1, Bool.true_or]
    have hcount1 : (cueStep rule cd b e st f.nextState f.nextCount f.sample
        f.now).1.lastRepCount = st.lastRepCount := by
      have := cueValgus_keeps rule cd b e
        (cueStateBlocks st f.nextState f.nextCount) f.nextState f.sample f.now
      unfold cueStep
      rw [this.1, hb.2]
    show (if (cueStep rule cd b e st f.nextState f.nextCount f.sample f.now).2
        then 1 else 0) +
      (runCue rule cd b e (cueStep rule cd b e st f.nextState f.nextCount
        f.sample f.now).1 t).2 = 0
    rw [hnofire]
    simp only [if_false, Bool.false_eq_true, zero_add]
    exact ih _ (fun g hg => hns g (List.mem_cons_of_mem f hg))
      (fun g hg => by rw [hcount1]; exact hnc g (List.mem_cons_of_mem f hg))
      hfired1

theorem runCue_at_most_once_aux (rule : ValgusRule) (cd : ℚ) (b e : Bool)
    (frames : List CueFrame) :
    ∀ (st : CueState),
      (∀ f ∈ frames, f.nextState ≠ SquatCounter.RepState.TOP) →
      (∀ f ∈ frames, f.nextCount = st.lastRepCount) →
      (runCue rule cd b e st frames).2 ≤ 1 := by
  induction frames with
  | nil => intro st _ _; exact Nat.zero_le 1
  | cons f t ih =>
    intro st hns hnc
    have hfm : f.nextState ≠ SquatCounter.RepState.TOP :=
      hns f (List.mem_cons_self f t)
    have hcm : f.nextCount = st.lastRepCount := hnc f (List.mem_cons_self f t)
    have hb := cueBlocks_nonclearing st f.nextState f.nextCount hfm hcm
    have hcount1 : (cueStep rule cd b e st f.nextState f.nextCount f.sample
        f.now).1.lastRepCount = st.lastRepCount := by
      have := cueValgus_keeps rule cd b e
        (cueStateBlocks st f.nextState f.nextCount) f.nextState f.sample f.now
      unfold cueStep
      rw [this.1, hb.2]
    show (if (cueStep rule cd b e st f.nextState f.nextCount f.sample f.now).2
        then 1 else 0) +
      (runCue rule cd b e (cueStep rule cd b e st f.nextState f.nextCount
        f.sample f.now).1 t).2 ≤ 1
    by_cases hr : (cueStep rule cd b e st f.nextState f.nextCount f.sample
        f.now).2 = true
    · have hfired1 : (cueStep rule cd b e st f.nextState f.nextCount f.sample
          f.now).1.kneesCueFired = true := by
        have := cueValgus_fired_eq rule cd b e
          (cueStateBlocks st f.nextState f.nextCount) f.nextState f.sample f.now
        unfold cueStep
        unfold cueStep at hr
        rw [this, hr, Bool.or_true]
      have hrest : (runCue rule cd b e (cueStep rule cd b e st f.nextState
          f.nextCount f.sample f.now).1 t).2 = 0 :=
        runCue_no_fire rule cd b e t _
          (fun g hg => hns g (List.mem_cons_of_mem f hg))
          (fun g hg => by rw [hcount1]; exact hnc g (List.mem_cons_of_mem f hg))
          hfired1
      rw [hr, hrest]
      simp
    · have hrf : (cueStep rule cd b e st f.nextState f.nextCount f.sample
          f.now).2 = false := Bool.eq_false_iff.mpr hr
      rw [hrf]
      simp only [if_false, Bool.false_eq_true, zero_add]
      exact ih _ (fun g hg => hns g (List.mem_cons_of_mem f hg))
        (fun g hg => by rw [hcount1]; exact hnc g (List.mem_cons_of_mem f hg))

/-- C3: (i) over any frame sequence that stays within one repetition — no
frame's phase is TOP and the rep count never differs from the engine's
`lastRepCount` — the cue engine fires the `knees out` voice cue at most
once, for every rule, cooldown, baseline state and starting engine state, in
particular when a bad knee-separation sample persists through an entire
DESCENDING→BOTTOM→ASCENDING cycle; and (ii) a frame that turns the
fired-for-this-rep flag off while it was on must be a phase change into TOP
or a rep-count change — the flag is cleared only at those two events. -/
theorem knees_cue_once :
    (∀ (rule : ValgusRule) (cd : ℚ) (bReady eTC : Bool) (st : CueState)
        (frames : List CueFrame),
        (∀ f ∈ frames, f.nextState ≠ SquatCounter.RepState.TOP) →
        (∀ f ∈ frames, f.nextCount = st.lastRepCount) →
        (runCue rule cd bReady eTC st frames).2 ≤ 1) ∧
    (∀ (rule : ValgusRule) (cd : ℚ) (bReady eTC : Bool) (st : CueState)
        (ns : SquatCounter.RepState) (nc : ℕ) (sample : Option ValgusSample)
        (now : ℚ),
        (cueStep rule cd bReady eTC st ns nc sample now).1.kneesCueFired = false →
        st.kneesCueFired = true →
        (ns = SquatCounter.RepState.TOP ∧ ns ≠ st.lastRepState) ∨
          nc ≠ st.lastRepCount) := by
  constructor
  · intro rule cd bReady eTC st frames hns hnc
    exact runCue_at_most_once_aux rule cd bReady eTC frames st hns hnc
  · intro rule cd bReady eTC st ns nc sample now h hf
    have hblocks : (cueStateBlocks st ns nc).kneesCueFired = false := by
      have heq := cueValgus_fired_eq rule cd bReady eTC
        (cueStateBlocks st ns nc) ns sample now
      unfold cueStep at h
      rw [heq] at h
      exact (Bool.or_eq_false_iff.mp h).1
    exact cueBlocks_clear_origin st ns nc hblocks hf

/-- A persistently bad, fully confident valgus sample: normalized knee
separation 1/2 (below the 0.85 bad threshold), knee flex 45°/50° (inside the
20°–110° window). -/
def badSample : ValgusSample :=
  { kneeSep := 1/2, hipWidth := 1, kneeSepNorm := 1/2, flexLeft := 45,
    flexRight := 50, confident := true }

/-- A DESCENDING→BOTTOM stretch of a single rep with the bad sample held on
every frame: hold starts at t=1000, the 300 ms persistence gate passes at
t=1400 and the cue fires there, and at t=1800 the fired-for-rep flag blocks
a second fire. -/
def cueFrames : List CueFrame :=
  [{ nextState := .DESCENDING, nextCount := 0, sample := some badSample,
     now := 1000 },
   { nextState := .DESCENDING, nextCount := 0, sample := some badSample,
     now := 1400 },
   { nextState := .BOTTOM, nextCount := 0, sample := some badSample,
     now := 1800 }]

set_option maxRecDepth 8192 in
/-- Witness for C3: the sustained-bad-sample run satisfies the hypotheses,
the theorem bounds its fires by one, and the engine in fact fires exactly
once on it. -/
theorem knees_cue_once_witness :
    (∀ f ∈ cueFrames, f.nextState ≠ SquatCounter.RepState.TOP) ∧
    (∀ f ∈ cueFrames, f.nextCount = initialCueState.lastRepCount) ∧
    (runCue DEFAULT_VALGUS_RULE 1200 true true initialCueState cueFrames).2 ≤ 1 ∧
    (runCue DEFAULT_VALGUS_RULE 1200 true true initialCueState cueFrames).2 = 1 := by
  refine ⟨by decide, by decide, ?_, by with_unfolding_all decide⟩
  exact knees_cue_once.1 DEFAULT_VALGUS_RULE 1200 true true initialCueState
    cueFrames (by decide) (by decide)

end ExerciseSession
